import Mathlib

/-!
Verification of the SteamReview repository (src/llm.py, src/main.py).

The summarisation engine (`summarise` in src/llm.py) is embedded shallowly:
the remote Gemini call is an oracle `Nat → Except String GData` giving, for
each attempt index, either a failure (network / JSON parse error, carried as
a message string) or the parsed JSON object.  Parsed JSON field values are
modelled by `PyVal` (scalar JSON values: null, string, integer, boolean;
nested containers are not needed by any theorem here).  Floats/sleeps are
modelled over `ℚ` (0.8 = 4/5).  The run loop of src/main.py is embedded with
an explicit object store so that Python's reference semantics for dicts
(the cached dict *is* the snapshot dict) is captured faithfully.
-/

namespace SteamReview

/-- A scalar Python value as produced by `json.loads` for a JSON field. -/
inductive PyVal where
  | pynone : PyVal
  | pystr (s : String) : PyVal
  | pyint (n : Int) : PyVal
  | pybool (b : Bool) : PyVal
deriving Repr, DecidableEq

/-- Python truthiness of a scalar value (`bool(v)`). -/
def pyTruthy : PyVal → Bool
  | .pynone => false
  | .pystr s => !s.isEmpty
  | .pyint n => n != 0
  | .pybool b => b

/-- Python `str(v)` for a scalar value. -/
def pyStr : PyVal → String
  | .pynone => "None"
  | .pystr s => s
  | .pyint n => toString n
  | .pybool b => if b then "True" else "False"

/-- The parsed JSON object returned by `_ask_gemini` (src/llm.py line 79):
`data.get("sentiment")` / `data.get("tldr", ...)` read these two fields,
`none` meaning the key is absent. -/
structure GData where
  sentiment : Option PyVal
  tldr : Option PyVal
deriving Repr, DecidableEq

/-- The validated summary record `{"sentiment": ..., "tldr": ...}`
returned by `summarise` (src/llm.py line 129). -/
structure Summary where
  sentiment : String
  tldr : String
deriving Repr, DecidableEq

/-- The positive token set of `_normalize_sentiment` (src/llm.py line 51).
The third element reproduces the file's literal (mojibake) characters. -/
def posTokens : List String := ["pos", "positive", "\u00f0\u0178\u2018", "good"]

/-- The negative token set of `_normalize_sentiment` (src/llm.py line 53). -/
def negTokens : List String := ["neg", "negative", "\u00f0\u0178\u2018\u017d", "bad"]

/-- Python `str.strip()`: drop leading and trailing whitespace
(character-list form). -/
def pyStripList (cs : List Char) : List Char :=
  ((cs.dropWhile Char.isWhitespace).reverse.dropWhile Char.isWhitespace).reverse

/-- Python `str.strip()` on strings. -/
def pyStrip (s : String) : String := ⟨pyStripList s.toList⟩

/-- Python `str.lower()` (characters lowered pointwise). -/
def pyLower (s : String) : String := ⟨s.toList.map Char.toLower⟩

/-- `_normalize_sentiment` (src/llm.py lines 49-55).  Its argument is the
raw value of `data.get("sentiment")`.  Python evaluates `(s or "")` and then
calls `.strip().lower()` on the result: when the value is truthy but not a
string this raises `AttributeError`, modelled by the `.error` branch. -/
def _normalize_sentiment (v : Option PyVal) : Except String String :=
  let s0 := v.getD .pynone
  let s1 := if pyTruthy s0 then s0 else .pystr ""
  match s1 with
  | .pystr s =>
      let t := pyLower (pyStrip s)
      if t ∈ posTokens then .ok "pos"
      else if t ∈ negTokens then .ok "neg"
      else .ok "mixed"
  | _ => .error "AttributeError: object has no attribute strip"

/-- Collapse every maximal whitespace run to one space (`_WS_RE.sub(" ", ·)`,
src/llm.py line 36). -/
def collapseWSAux : List Char → Bool → List Char
  | [], _ => []
  | c :: cs, prevWS =>
      if c.isWhitespace then
        if prevWS then collapseWSAux cs true else ' ' :: collapseWSAux cs true
      else c :: collapseWSAux cs false

/-- Python `str.split(" ")`: cut at every single space, keeping empty
pieces (so the empty string yields one empty piece). -/
def splitSpaces : List Char → List (List Char)
  | [] => [[]]
  | c :: cs =>
      if c = ' ' then [] :: splitSpaces cs
      else
        match splitSpaces cs with
        | [] => [[c]]
        | w :: ws => (c :: w) :: ws

/-- `_count_words` (src/llm.py lines 58-59): strip, collapse whitespace
runs to single spaces, split on spaces, count the nonempty tokens. -/
def _count_words (text : String) : Nat :=
  ((splitSpaces (collapseWSAux (pyStripList text.toList) false)).filter
    (fun w => !w.isEmpty)).length

/-- `str(data.get("tldr", "")).strip()` (src/llm.py lines 108 and 122). -/
def primaryTldr (d : GData) : String := pyStrip (pyStr (d.tldr.getD (.pystr "")))

/-- `abs(wc - 10)`, the distance of a word count from the 10-word target
(src/llm.py line 124). -/
def distTo10 (n : Nat) : Nat := ((n : Int) - 10).natAbs

/-- The extra instruction given to the one-shot repair call
(src/llm.py lines 116-120); this is the only place `accept_min`/`accept_max`
are used by `summarise`. -/
def repairInstruction (accept_min accept_max : Nat) : String :=
  "Rewrite the TL;DR as a fluent sentence of about 10 words " ++
    "(acceptable range " ++ toString accept_min ++ "–" ++
    toString accept_max ++ "). Only return the JSON."

/-- The tldr kept after the repair branch ran (src/llm.py lines 113-127):
a failed repair is swallowed and keeps the original; a successful repair is
adopted only when its word count is strictly closer to 10. -/
def repairedTldr (d : GData) (rep : Except String GData) : String :=
  match rep with
  | .error _ => primaryTldr d
  | .ok d2 =>
      if distTo10 (_count_words (primaryTldr d2)) <
          distTo10 (_count_words (primaryTldr d)) then primaryTldr d2
      else primaryTldr d

/-- The body of one attempt of `summarise` after a successful primary call
(src/llm.py lines 108-129), given the outcome `rep` the repair call would
have.  Returns the summary together with the number of repair calls issued
(1 when the word count is outside the extreme band, else 0), or the
`AttributeError` raised by `_normalize_sentiment` on a truthy non-string
sentiment value. -/
def attemptRun (d : GData) (rep : Except String GData) (extreme_min extreme_max : Nat) :
    Except String (Summary × Nat) :=
  match _normalize_sentiment d.sentiment with
  | .error e => .error e
  | .ok snt =>
      let wc := _count_words (primaryTldr d)
      if wc < extreme_min || extreme_max < wc then
        .ok (⟨snt, repairedTldr d rep⟩, 1)
      else
        .ok (⟨snt, primaryTldr d⟩, 0)

/-- Outcome of one full attempt (primary call and validation) of `summarise`:
either the summary produced plus the repair-call count, or the error that
makes the outer loop retry.  `primary` gives the outcome of the primary
`_ask_gemini` call at each attempt index, `repair` the outcome of a repair
call at a given attempt index and instruction string. -/
def attemptOutcome (primary : Nat → Except String GData)
    (repair : Nat → String → Except String GData)
    (accept_min accept_max extreme_min extreme_max attempt : Nat) :
    Except String (Summary × Nat) :=
  match primary attempt with
  | .error e => .error e
  | .ok d =>
      attemptRun d (repair attempt (repairInstruction accept_min accept_max))
        extreme_min extreme_max

/-- Observable result of a `summarise` call: the returned record or raised
error, the `time.sleep` durations in order, and how many primary and repair
calls were issued. -/
structure SummariseResult where
  outcome : Except String Summary
  sleeps : List ℚ
  primaryCalls : Nat
  repairCalls : Nat
deriving Repr

/-- The backoff sleeps of `j` failed attempts starting at attempt index
`start`: `backoff * 2 ^ attempt` for each (src/llm.py line 134). -/
def sleepList (backoff : ℚ) : Nat → Nat → List ℚ
  | _, 0 => []
  | start, j + 1 => backoff * 2 ^ start :: sleepList backoff (start + 1) j

/-- The retry loop of `summarise` (src/llm.py lines 105-136): run the attempt
at index `attempt`; on failure with `fuel` retries left, sleep
`backoff * 2 ^ attempt` and recurse, and with no retries left re-raise the
error. -/
def summariseAux (primary : Nat → Except String GData)
    (repair : Nat → String → Except String GData) (backoff : ℚ)
    (accept_min accept_max extreme_min extreme_max : Nat) :
    Nat → Nat → SummariseResult
  | attempt, 0 =>
      match attemptOutcome primary repair accept_min accept_max extreme_min
          extreme_max attempt with
      | .ok (s, rc) => ⟨.ok s, [], 1, rc⟩
      | .error e => ⟨.error e, [], 1, 0⟩
  | attempt, fuel + 1 =>
      match attemptOutcome primary repair accept_min accept_max extreme_min
          extreme_max attempt with
      | .ok (s, rc) => ⟨.ok s, [], 1, rc⟩
      | .error _ =>
          let rest := summariseAux primary repair backoff accept_min accept_max
            extreme_min extreme_max (attempt + 1) fuel
          ⟨rest.outcome, backoff * 2 ^ attempt :: rest.sleeps,
            rest.primaryCalls + 1, rest.repairCalls⟩

/-- `summarise` (src/llm.py lines 83-138) over the call oracles. -/
def summarise (primary : Nat → Except String GData)
    (repair : Nat → String → Except String GData) (retries : Nat) (backoff : ℚ)
    (accept_min accept_max extreme_min extreme_max : Nat) : SummariseResult :=
  summariseAux primary repair backoff accept_min accept_max extreme_min
    extreme_max 0 retries

/-- `summarise` at its default parameters
(`retries=2, backoff=0.8, accept 8..12, extreme 6..16`). -/
def summariseDefault (primary : Nat → Except String GData)
    (repair : Nat → String → Except String GData) : SummariseResult :=
  summarise primary repair 2 (4 / 5) 8 12 6 16

/-! ## The run loop of src/main.py -/

/-- One fetched review (src/steam.py lines 65-68). -/
structure Review where
  author : String
  text : String
  recommended : Bool
deriving Repr, DecidableEq

/-- A Python dict as it occurs in the run loop of src/main.py: a summary
record, possibly extended in place with `author`/`recommended`
(lines 119-120), or an error record (line 123).  A field is `none` when the
key is absent from the dict. -/
structure Obj where
  sentiment : Option String
  tldr : Option String
  author : Option String
  recommended : Option Bool
  error : Option String
deriving Repr, DecidableEq

/-- The dict with no keys. -/
def emptyObj : Obj := ⟨Option.none, Option.none, Option.none, Option.none, Option.none⟩

/-- State of the `run` loop (src/main.py lines 99-125).  Python dicts are
reference values: `cache[key] = s` followed by `s["author"] = ...` mutates
the dict held by the cache.  The heap is made explicit as `store`; both the
cache and the snapshot list hold indices into it.  `calls` counts the
`summarise` invocations made so far. -/
structure RunState where
  store : List Obj
  cache : List (String × Nat)
  snapshots : List Nat
  calls : Nat
deriving Repr, DecidableEq

/-- The dict the run state holds at index `id`. -/
def getObj (st : RunState) (id : Nat) : Obj := (st.store[id]?).getD emptyObj

/-- `cache[key] = id` on the association-list view of a Python dict. -/
def mapSet (c : List (String × Nat)) (k : String) (id : Nat) : List (String × Nat) :=
  (k, id) :: c.filter (fun p => p.1 != k)

/-- The body of the per-review loop of `run` (src/main.py lines 99-125) for
one review: look the content hash up in the cache unless caching is off,
otherwise call `summarise` (the `summariser` oracle, indexed by the number of
calls made so far); a raised error is captured as an error snapshot; the
snapshot dict — which on the cache path or after `cache[key] = s` is the very
dict the cache holds — is extended with `author` and `recommended`. -/
def processReview (summariser : Nat → String → Except String Summary)
    (hash : String → String) (noCache : Bool) (st : RunState) (rev : Review) :
    RunState :=
  let key := hash rev.text
  match (if noCache then Option.none else st.cache.lookup key) with
  | some id =>
      let o := getObj st id
      let o2 := { o with author := some rev.author, recommended := some rev.recommended }
      { st with store := st.store.set id o2, snapshots := st.snapshots ++ [id] }
  | Option.none =>
      match summariser st.calls rev.text with
      | .ok sm =>
          let id := st.store.length
          let o : Obj := { sentiment := some sm.sentiment, tldr := some sm.tldr,
                           author := some rev.author,
                           recommended := some rev.recommended,
                           error := Option.none }
          { store := st.store ++ [o],
            cache := if noCache then st.cache else mapSet st.cache key id,
            snapshots := st.snapshots ++ [id],
            calls := st.calls + 1 }
      | .error e =>
          let id := st.store.length
          let o : Obj := { emptyObj with author := some rev.author, error := some e }
          { st with store := st.store ++ [o], snapshots := st.snapshots ++ [id],
                    calls := st.calls + 1 }

/-- The state before the first review: an empty heap, cache and snapshot
list (the on-disk cache file is external; a fresh run starts empty). -/
def initState : RunState := ⟨[], [], [], 0⟩

/-- The whole review loop of `run` (src/main.py lines 99-125). -/
def runReviews (summariser : Nat → String → Except String Summary)
    (hash : String → String) (noCache : Bool) (reviews : List Review) : RunState :=
  reviews.foldl (processReview summariser hash noCache) initState

/-! ## Helper lemmas about the retry loop -/

/-- `sleepList` lists exactly the durations `backoff * 2 ^ attempt_index`. -/
theorem sleepList_eq_map (b : ℚ) (j : Nat) :
    ∀ start, sleepList b start j = (List.range j).map (fun i => b * 2 ^ (start + i)) := by
  induction j with
  | zero => intro start; simp [sleepList]
  | succ j ih =>
      intro start
      rw [List.range_succ_eq_map, List.map_cons, List.map_map, sleepList, ih (start + 1)]
      have hf : ((fun i => b * 2 ^ (start + i)) ∘ Nat.succ) =
          fun i => b * 2 ^ (start + 1 + i) := by
        funext i
        have h : start + Nat.succ i = start + 1 + i := by omega
        simp [Function.comp, h]
      rw [hf]
      simp

section SummariseLemmas

variable {primary : Nat → Except String GData}
variable {repair : Nat → String → Except String GData}
variable {backoff : ℚ} {amin amax emin emax : Nat}

/-- A successful attempt ends the loop at once: no sleeps, one primary call. -/
theorem summariseAux_ok {attempt fuel : Nat} {s : Summary} {rc : Nat}
    (h : attemptOutcome primary repair amin amax emin emax attempt = .ok (s, rc)) :
    summariseAux primary repair backoff amin amax emin emax attempt fuel =
      ⟨.ok s, [], 1, rc⟩ := by
  cases fuel <;> simp [summariseAux, h]

/-- A failing attempt with no retries left re-raises its error. -/
theorem summariseAux_err_zero {attempt : Nat} {e : String}
    (h : attemptOutcome primary repair amin amax emin emax attempt = .error e) :
    summariseAux primary repair backoff amin amax emin emax attempt 0 =
      ⟨.error e, [], 1, 0⟩ := by
  simp [summariseAux, h]

/-- A failing attempt with retries left sleeps `backoff * 2 ^ attempt` and
continues with the next attempt. -/
theorem summariseAux_err_succ {attempt fuel : Nat} {e : String}
    (h : attemptOutcome primary repair amin amax emin emax attempt = .error e) :
    summariseAux primary repair backoff amin amax emin emax attempt (fuel + 1) =
      ⟨(summariseAux primary repair backoff amin amax emin emax (attempt + 1) fuel).outcome,
        backoff * 2 ^ attempt ::
          (summariseAux primary repair backoff amin amax emin emax (attempt + 1) fuel).sleeps,
        (summariseAux primary repair backoff amin amax emin emax (attempt + 1) fuel).primaryCalls + 1,
        (summariseAux primary repair backoff amin amax emin emax (attempt + 1) fuel).repairCalls⟩ := by
  simp [summariseAux, h]

/-- If the attempts before index `start + j` all fail and the one at
`start + j` succeeds within the budget, the loop returns that attempt's
summary, having slept once per failed attempt. -/
theorem summariseAux_first_success {j : Nat} :
    ∀ {start fuel : Nat} {s : Summary} {rc : Nat},
    (∀ i, i < j →
      ∃ e, attemptOutcome primary repair amin amax emin emax (start + i) = .error e) →
    attemptOutcome primary repair amin amax emin emax (start + j) = .ok (s, rc) →
    j ≤ fuel →
    summariseAux primary repair backoff amin amax emin emax start fuel =
      ⟨.ok s, sleepList backoff start j, j + 1, rc⟩ := by
  induction j with
  | zero =>
      intro start fuel s rc _ hok _
      rw [Nat.add_zero] at hok
      rw [summariseAux_ok hok]
      simp [sleepList]
  | succ j ih =>
      intro start fuel s rc hfail hok hj
      obtain ⟨e0, he0⟩ := hfail 0 (Nat.succ_pos j)
      rw [Nat.add_zero] at he0
      cases fuel with
      | zero => omega
      | succ fuel =>
          rw [summariseAux_err_succ he0]
          have hfail2 : ∀ i, i < j →
              ∃ e, attemptOutcome primary repair amin amax emin emax (start + 1 + i) = .error e := by
            intro i hi
            have h2 := hfail (i + 1) (by omega)
            have h3 : start + (i + 1) = start + 1 + i := by omega
            rwa [h3] at h2
          have hok2 : attemptOutcome primary repair amin amax emin emax (start + 1 + j) = .ok (s, rc) := by
            have h3 : start + (j + 1) = start + 1 + j := by omega
            rwa [h3] at hok
          rw [ih hfail2 hok2 (by omega)]
          simp [sleepList]

/-- If every attempt within the budget fails, the loop raises the error of
the last attempt, having slept between consecutive attempts. -/
theorem summariseAux_all_fail {fuel : Nat} :
    ∀ {start : Nat} {e : String},
    (∀ i, i < fuel →
      ∃ e2, attemptOutcome primary repair amin amax emin emax (start + i) = .error e2) →
    attemptOutcome primary repair amin amax emin emax (start + fuel) = .error e →
    summariseAux primary repair backoff amin amax emin emax start fuel =
      ⟨.error e, sleepList backoff start fuel, fuel + 1, 0⟩ := by
  induction fuel with
  | zero =>
      intro start e _ hlast
      rw [Nat.add_zero] at hlast
      rw [summariseAux_err_zero hlast]
      simp [sleepList]
  | succ fuel ih =>
      intro start e hfail hlast
      obtain ⟨e0, he0⟩ := hfail 0 (Nat.succ_pos fuel)
      rw [Nat.add_zero] at he0
      rw [summariseAux_err_succ he0]
      have hfail2 : ∀ i, i < fuel →
          ∃ e2, attemptOutcome primary repair amin amax emin emax (start + 1 + i) = .error e2 := by
        intro i hi
        have h2 := hfail (i + 1) (by omega)
        have h3 : start + (i + 1) = start + 1 + i := by omega
        rwa [h3] at h2
      have hlast2 : attemptOutcome primary repair amin amax emin emax (start + 1 + fuel) = .error e := by
        have h3 : start + (fuel + 1) = start + 1 + fuel := by omega
        rwa [h3] at hlast
      rw [ih hfail2 hlast2]
      simp [sleepList]

/-- `summarise` when the attempts before index `j` fail and attempt `j`
succeeds within the retry budget. -/
theorem summarise_first_success {retries : Nat} {j : Nat} {s : Summary} {rc : Nat}
    (hfail : ∀ i, i < j →
      ∃ e, attemptOutcome primary repair amin amax emin emax i = .error e)
    (hok : attemptOutcome primary repair amin amax emin emax j = .ok (s, rc))
    (hj : j ≤ retries) :
    summarise primary repair retries backoff amin amax emin emax =
      ⟨.ok s, sleepList backoff 0 j, j + 1, rc⟩ := by
  unfold summarise
  refine summariseAux_first_success ?_ (by simpa using hok) hj
  intro i hi
  simpa using hfail i hi

/-- `summarise` when every attempt within the budget fails: the error of the
last attempt is raised. -/
theorem summarise_all_fail {retries : Nat} {e : String}
    (hfail : ∀ i, i < retries →
      ∃ e2, attemptOutcome primary repair amin amax emin emax i = .error e2)
    (hlast : attemptOutcome primary repair amin amax emin emax retries = .error e) :
    summarise primary repair retries backoff amin amax emin emax =
      ⟨.error e, sleepList backoff 0 retries, retries + 1, 0⟩ := by
  unfold summarise
  refine summariseAux_all_fail ?_ (by simpa using hlast)
  intro i hi
  simpa using hfail i hi

end SummariseLemmas

/-- An attempt whose primary call parses is the body run on its data. -/
theorem attemptOutcome_ok {primary : Nat → Except String GData}
    {repair : Nat → String → Except String GData}
    {amin amax emin emax j : Nat} {d : GData} (hok : primary j = .ok d) :
    attemptOutcome primary repair amin amax emin emax j =
      attemptRun d (repair j (repairInstruction amin amax)) emin emax := by
  unfold attemptOutcome
  rw [hok]

/-- The attempt body when the word count is outside the extreme band: one
repair call is issued and the repaired tldr replaces the original exactly
when strictly closer to 10 words; the sentiment stays the primary one. -/
theorem attemptRun_extreme {d : GData} {snt : String} {emin emax : Nat}
    (hsnt : _normalize_sentiment d.sentiment = .ok snt)
    (hwc : _count_words (primaryTldr d) < emin ∨ emax < _count_words (primaryTldr d))
    (rep : Except String GData) :
    attemptRun d rep emin emax = .ok (⟨snt, repairedTldr d rep⟩, 1) := by
  have hb : (_count_words (primaryTldr d) < emin || emax < _count_words (primaryTldr d)) = true := by
    rcases hwc with h | h <;> simp [h]
  unfold attemptRun
  rw [hsnt]
  simp [hb]

/-- The attempt body when the word count lies inside the extreme band: no
repair call, the original tldr is kept. -/
theorem attemptRun_inside {d : GData} {snt : String} {emin emax : Nat}
    (hsnt : _normalize_sentiment d.sentiment = .ok snt)
    (hlo : emin ≤ _count_words (primaryTldr d))
    (hhi : _count_words (primaryTldr d) ≤ emax)
    (rep : Except String GData) :
    attemptRun d rep emin emax = .ok (⟨snt, primaryTldr d⟩, 0) := by
  have hb : (_count_words (primaryTldr d) < emin || emax < _count_words (primaryTldr d)) = false := by
    simp only [Bool.or_eq_false_iff, decide_eq_false_iff_not, not_lt]
    exact ⟨hlo, hhi⟩
  unfold attemptRun
  rw [hsnt]
  simp [hb]

/-- The attempt body never fails once the sentiment value normalizes. -/
theorem attemptRun_sentiment_ok {d : GData} {snt : String}
    (rep : Except String GData) (emin emax : Nat)
    (hsnt : _normalize_sentiment d.sentiment = .ok snt) :
    ∃ t rc, attemptRun d rep emin emax = .ok (⟨snt, t⟩, rc) := by
  unfold attemptRun
  rw [hsnt]
  cases hb : (_count_words (primaryTldr d) < emin || emax < _count_words (primaryTldr d)) with
  | true => exact ⟨repairedTldr d rep, 1, by simp [hb]⟩
  | false => exact ⟨primaryTldr d, 0, by simp [hb]⟩

/-! ## Claims about the summarisation engine -/

/-- C1: when the first succeeding attempt's primary response has a tldr word
count outside `[extreme_min, extreme_max]`, `summarise` issues exactly one
repair call; the repaired tldr is adopted iff its word count is strictly
closer to 10 (by absolute distance) than the original's, and the sentiment
of the returned summary comes from the primary response, never from the
repair response. -/
theorem C1_far_band_single_repair (primary : Nat → Except String GData)
    (repair : Nat → String → Except String GData) (retries : Nat) (backoff : ℚ)
    (accept_min accept_max extreme_min extreme_max j : Nat) (d : GData) (snt : String)
    (hj : j ≤ retries)
    (hfail : ∀ i, i < j → ∃ e,
      attemptOutcome primary repair accept_min accept_max extreme_min extreme_max i = .error e)
    (hok : primary j = .ok d)
    (hsnt : _normalize_sentiment d.sentiment = .ok snt)
    (hwc : _count_words (primaryTldr d) < extreme_min ∨
      extreme_max < _count_words (primaryTldr d)) :
    (summarise primary repair retries backoff accept_min accept_max extreme_min
      extreme_max).repairCalls = 1 ∧
    (summarise primary repair retries backoff accept_min accept_max extreme_min
      extreme_max).outcome =
      .ok ⟨snt,
        match repair j (repairInstruction accept_min accept_max) with
        | .error _ => primaryTldr d
        | .ok d2 =>
            if distTo10 (_count_words (primaryTldr d2)) <
                distTo10 (_count_words (primaryTldr d)) then primaryTldr d2
            else primaryTldr d⟩ := by
  have h1 : attemptOutcome primary repair accept_min accept_max extreme_min extreme_max j =
      .ok (⟨snt, repairedTldr d (repair j (repairInstruction accept_min accept_max))⟩, 1) := by
    rw [attemptOutcome_ok hok]
    exact attemptRun_extreme hsnt hwc _
  rw [summarise_first_success hfail h1 hj]
  refine ⟨rfl, ?_⟩
  show Except.ok _ = Except.ok _
  cases hrep : repair j (repairInstruction accept_min accept_max) <;>
    simp [repairedTldr, hrep]

/-- Concrete instance of C1: a 3-word primary tldr triggers the repair and a
10-word repaired tldr is adopted while the primary sentiment is kept. -/
def dW3 : GData := ⟨some (.pystr "positive"), some (.pystr "Too short here")⟩

/-- 10-word repair response used by the C1 witness (sentiment differs from
the primary one on purpose). -/
def dW10 : GData := ⟨some (.pystr "negative"), some (.pystr "a b c d e f g h i j")⟩

/-- Primary oracle that always parses to `dW3`. -/
def pW1 : Nat → Except String GData := fun _ => .ok dW3

/-- Repair oracle that always parses to `dW10`. -/
def rW1 : Nat → String → Except String GData := fun _ _ => .ok dW10

/-- Witness for C1 at the default parameters. -/
theorem C1_witness :
    (summarise pW1 rW1 2 (4 / 5) 8 12 6 16).repairCalls = 1 ∧
    (summarise pW1 rW1 2 (4 / 5) 8 12 6 16).outcome =
      .ok ⟨"pos", "a b c d e f g h i j"⟩ := by
  have h := C1_far_band_single_repair pW1 rW1 2 (4 / 5) 8 12 6 16 0 dW3 "pos"
    (Nat.zero_le 2) (fun i hi => absurd hi (Nat.not_lt_zero i)) rfl rfl
    (Or.inl (by decide))
  exact ⟨h.1, by rw [h.2]; rfl⟩

/-- C2: when the first succeeding attempt's primary response has a tldr word
count inside `[extreme_min, extreme_max]` but outside
`[accept_min, accept_max]`, `summarise` issues no repair call and returns
the original tldr unchanged. -/
theorem C2_near_band_no_repair (primary : Nat → Except String GData)
    (repair : Nat → String → Except String GData) (retries : Nat) (backoff : ℚ)
    (accept_min accept_max extreme_min extreme_max j : Nat) (d : GData) (snt : String)
    (hj : j ≤ retries)
    (hfail : ∀ i, i < j → ∃ e,
      attemptOutcome primary repair accept_min accept_max extreme_min extreme_max i = .error e)
    (hok : primary j = .ok d)
    (hsnt : _normalize_sentiment d.sentiment = .ok snt)
    (hlo : extreme_min ≤ _count_words (primaryTldr d))
    (hhi : _count_words (primaryTldr d) ≤ extreme_max)
    (_houtside : _count_words (primaryTldr d) < accept_min ∨
      accept_max < _count_words (primaryTldr d)) :
    (summarise primary repair retries backoff accept_min accept_max extreme_min
      extreme_max).repairCalls = 0 ∧
    (summarise primary repair retries backoff accept_min accept_max extreme_min
      extreme_max).outcome = .ok ⟨snt, primaryTldr d⟩ := by
  have h1 : attemptOutcome primary repair accept_min accept_max extreme_min extreme_max j =
      .ok (⟨snt, primaryTldr d⟩, 0) := by
    rw [attemptOutcome_ok hok]
    exact attemptRun_inside hsnt hlo hhi _
  rw [summarise_first_success hfail h1 hj]
  exact ⟨rfl, rfl⟩

/-- 7-word response (inside the extreme band, outside the accept band). -/
def dW7 : GData := ⟨some (.pystr "good"), some (.pystr "a b c d e f g")⟩

/-- Primary oracle that always parses to `dW7`. -/
def pW2 : Nat → Except String GData := fun _ => .ok dW7

/-- Repair oracle whose answer must never be consulted in the C2 witness. -/
def rW2 : Nat → String → Except String GData := fun _ _ => .error "never called"

/-- Witness for C2 at the default parameters: 7 words, no repair. -/
theorem C2_witness :
    (summarise pW2 rW2 2 (4 / 5) 8 12 6 16).repairCalls = 0 ∧
    (summarise pW2 rW2 2 (4 / 5) 8 12 6 16).outcome = .ok ⟨"pos", "a b c d e f g"⟩ := by
  have h := C2_near_band_no_repair pW2 rW2 2 (4 / 5) 8 12 6 16 0 dW7 "pos"
    (Nat.zero_le 2) (fun i hi => absurd hi (Nat.not_lt_zero i)) rfl rfl
    (by decide) (by decide) (Or.inl (by decide))
  exact ⟨h.1, by rw [h.2]; rfl⟩

/-- C3: a failed attempt of the primary call-and-parse sequence is retried
up to `retries` more times with sleeps of `backoff * 2 ^ attempt_index`
between attempts; a success within the budget is returned, and when all
`retries + 1` attempts fail the last error is raised instead of any partial
result. -/
theorem C3_retry_backoff_last_error (primary : Nat → Except String GData)
    (repair : Nat → String → Except String GData) (retries : Nat) (backoff : ℚ)
    (accept_min accept_max extreme_min extreme_max : Nat) :
    (∀ j s rc, j ≤ retries →
      (∀ i, i < j → ∃ e,
        attemptOutcome primary repair accept_min accept_max extreme_min extreme_max i = .error e) →
      attemptOutcome primary repair accept_min accept_max extreme_min extreme_max j = .ok (s, rc) →
      summarise primary repair retries backoff accept_min accept_max extreme_min extreme_max =
        ⟨.ok s, (List.range j).map (fun i => backoff * 2 ^ i), j + 1, rc⟩) ∧
    (∀ e, (∀ i, i < retries → ∃ e2,
        attemptOutcome primary repair accept_min accept_max extreme_min extreme_max i = .error e2) →
      attemptOutcome primary repair accept_min accept_max extreme_min extreme_max retries = .error e →
      summarise primary repair retries backoff accept_min accept_max extreme_min extreme_max =
        ⟨.error e, (List.range retries).map (fun i => backoff * 2 ^ i), retries + 1, 0⟩) := by
  have hmap : ∀ n : Nat, sleepList backoff 0 n = (List.range n).map (fun i => backoff * 2 ^ i) := by
    intro n
    rw [sleepList_eq_map]
    simp only [Nat.zero_add]
  constructor
  · intro j s rc hj hfail hok
    rw [summarise_first_success hfail hok hj, hmap]
  · intro e hfail hlast
    rw [summarise_all_fail hfail hlast, hmap]

/-- Primary oracle failing twice (attempts 0 and 1), succeeding at 2. -/
def pW3 : Nat → Except String GData := fun i => if i < 2 then .error "boom" else .ok dW10

/-- Witness for C3: two failures then a success with `retries = 2` yields the
final summary after sleeping 0.8s and 1.6s. -/
theorem C3_witness :
    summarise pW3 rW1 2 (4 / 5) 8 12 6 16 =
      ⟨.ok ⟨"neg", "a b c d e f g h i j"⟩, [4 / 5, 8 / 5], 3, 0⟩ := by
  have h := (C3_retry_backoff_last_error pW3 rW1 2 (4 / 5) 8 12 6 16).1 2
    ⟨"neg", "a b c d e f g h i j"⟩ 0 (le_refl 2)
    (fun i hi => ⟨"boom", by interval_cases i <;> rfl⟩) rfl
  rw [h]
  norm_num [List.range_succ]

/-- C4: a failure of the one-shot repair call is swallowed: `summarise`
neither raises nor retries the repair, and returns the original
(out-of-range) tldr. -/
theorem C4_repair_failure_swallowed (primary : Nat → Except String GData)
    (repair : Nat → String → Except String GData) (retries : Nat) (backoff : ℚ)
    (accept_min accept_max extreme_min extreme_max j : Nat) (d : GData) (snt : String)
    (hj : j ≤ retries)
    (hfail : ∀ i, i < j → ∃ e,
      attemptOutcome primary repair accept_min accept_max extreme_min extreme_max i = .error e)
    (hok : primary j = .ok d)
    (hsnt : _normalize_sentiment d.sentiment = .ok snt)
    (hwc : _count_words (primaryTldr d) < extreme_min ∨
      extreme_max < _count_words (primaryTldr d))
    (err : String)
    (hrep : repair j (repairInstruction accept_min accept_max) = .error err) :
    (summarise primary repair retries backoff accept_min accept_max extreme_min
      extreme_max).outcome = .ok ⟨snt, primaryTldr d⟩ ∧
    (summarise primary repair retries backoff accept_min accept_max extreme_min
      extreme_max).repairCalls = 1 := by
  have h1 : attemptOutcome primary repair accept_min accept_max extreme_min extreme_max j =
      .ok (⟨snt, primaryTldr d⟩, 1) := by
    rw [attemptOutcome_ok hok, attemptRun_extreme hsnt hwc _, hrep]
    simp [repairedTldr]
  rw [summarise_first_success hfail h1 hj]
  exact ⟨rfl, rfl⟩

/-- Repair oracle that always fails (simulated network error). -/
def rFail : Nat → String → Except String GData := fun _ _ => .error "network down"

/-- Witness for C4: a 3-word tldr triggers a repair that fails; the original
out-of-range tldr is returned without raising. -/
theorem C4_witness :
    (summarise pW1 rFail 2 (4 / 5) 8 12 6 16).outcome = .ok ⟨"pos", "Too short here"⟩ ∧
    (summarise pW1 rFail 2 (4 / 5) 8 12 6 16).repairCalls = 1 :=
  C4_repair_failure_swallowed pW1 rFail 2 (4 / 5) 8 12 6 16 0 dW3 "pos"
    (Nat.zero_le 2) (fun i hi => absurd hi (Nat.not_lt_zero i)) rfl rfl
    (Or.inl (by decide)) "network down" rfl

/-- `_normalize_sentiment` on a string input: `(s or "")` is `s` itself when
`s` is nonempty and `""` otherwise, so the function always reaches the
strip-lower-compare chain. -/
theorem normalize_sentiment_str (s : String) :
    _normalize_sentiment (some (.pystr s)) =
      .ok (if pyLower (pyStrip s) ∈ posTokens then "pos"
           else if pyLower (pyStrip s) ∈ negTokens then "neg" else "mixed") := by
  by_cases hs : s = ""
  · subst hs
    rfl
  · have hne : s.isEmpty = false := by
      rw [Bool.eq_false_iff]
      intro hc
      exact hs ((String.isEmpty_iff s).mp hc)
    simp only [_normalize_sentiment, pyTruthy, Option.getD_some, hne, Bool.not_false,
      if_true]
    split_ifs <;> rfl

/-- C5: for every input that is absent, JSON null, or a string (the inputs
the claim enumerates), `_normalize_sentiment` succeeds and returns exactly
one of "pos", "neg", "mixed": recognized positive tokens map to "pos",
recognized negative tokens to "neg", and everything else (missing values
included) to "mixed". -/
theorem C5_normalize_total (v : Option PyVal)
    (h : v = Option.none ∨ v = some .pynone ∨ ∃ s, v = some (.pystr s)) :
    ∃ r, _normalize_sentiment v = .ok r ∧
      (r = "pos" ∨ r = "neg" ∨ r = "mixed") ∧
      ∀ s, v = some (.pystr s) →
        (pyLower (pyStrip s) ∈ posTokens → r = "pos") ∧
        (pyLower (pyStrip s) ∉ posTokens → pyLower (pyStrip s) ∈ negTokens → r = "neg") ∧
        (pyLower (pyStrip s) ∉ posTokens → pyLower (pyStrip s) ∉ negTokens → r = "mixed") := by
  rcases h with h | h | ⟨s, h⟩ <;> subst h
  · exact ⟨"mixed", rfl, Or.inr (Or.inr rfl), fun s hs => by simp at hs⟩
  · exact ⟨"mixed", rfl, Or.inr (Or.inr rfl), fun s hs => by simp at hs⟩
  · rw [normalize_sentiment_str]
    refine ⟨_, rfl, ?_, ?_⟩
    · split_ifs <;> simp
    · intro s2 hs2
      have hss : s = s2 := by simpa using hs2
      subst hss
      refine ⟨?_, ?_, ?_⟩
      · intro hmem
        rw [if_pos hmem]
      · intro hn hmem
        rw [if_neg hn, if_pos hmem]
      · intro hn1 hn2
        rw [if_neg hn1, if_neg hn2]

/-- Witness for C5: the recognized token "positive" (with spacing and upper
case) normalizes to "pos". -/
theorem C5_witness :
    _normalize_sentiment (some (.pystr " POSITIVE ")) = .ok "pos" := by
  obtain ⟨r, hr, _, hmap⟩ := C5_normalize_total (some (.pystr " POSITIVE "))
    (Or.inr (Or.inr ⟨" POSITIVE ", rfl⟩))
  have hp := (hmap " POSITIVE " rfl).1 (by decide)
  rw [hr, hp]

/-- C6: a primary tldr that strips to the empty string (word count 0)
triggers the single repair attempt like any out-of-range count, and when
the repair also yields a 0-word tldr the empty string is accepted as the
final tldr with no further escalation. -/
theorem C6_empty_tldr_policy (primary : Nat → Except String GData)
    (repair : Nat → String → Except String GData) (j : Nat) (d : GData)
    (snt : String) (d2 : GData)
    (hj : j ≤ 2)
    (hfail : ∀ i, i < j → ∃ e, attemptOutcome primary repair 8 12 6 16 i = .error e)
    (hok : primary j = .ok d)
    (hsnt : _normalize_sentiment d.sentiment = .ok snt)
    (hempty : primaryTldr d = "")
    (hrep : repair j (repairInstruction 8 12) = .ok d2)
    (hrep0 : _count_words (primaryTldr d2) = 0) :
    (summariseDefault primary repair).repairCalls = 1 ∧
    (summariseDefault primary repair).outcome = .ok ⟨snt, ""⟩ := by
  have hzero : _count_words "" = 0 := by decide
  have hwc0 : _count_words (primaryTldr d) = 0 := by
    rw [hempty, hzero]
  have hwc : _count_words (primaryTldr d) < 6 ∨ 16 < _count_words (primaryTldr d) := by
    left
    omega
  have h1 : attemptOutcome primary repair 8 12 6 16 j = .ok (⟨snt, ""⟩, 1) := by
    rw [attemptOutcome_ok hok, attemptRun_extreme hsnt hwc _, hrep]
    simp [repairedTldr, hrep0, hempty, hzero]
  unfold summariseDefault summarise
  rw [show summariseAux primary repair (4 / 5) 8 12 6 16 0 2 =
    summarise primary repair 2 (4 / 5) 8 12 6 16 from rfl]
  rw [summarise_first_success hfail h1 hj]
  exact ⟨rfl, rfl⟩

/-- Whitespace-only primary tldr used by the C6 witness. -/
def dWS : GData := ⟨some (.pystr "positive"), some (.pystr "   ")⟩

/-- Empty repair tldr used by the C6 witness. -/
def dW0 : GData := ⟨some (.pystr "pos"), some (.pystr "")⟩

/-- Primary oracle that always parses to the whitespace-only tldr. -/
def pW6 : Nat → Except String GData := fun _ => .ok dWS

/-- Repair oracle that always parses to the empty tldr. -/
def rW6 : Nat → String → Except String GData := fun _ _ => .ok dW0

/-- Witness for C6: whitespace-only primary tldr, empty repair tldr; the
result is the empty string with exactly one repair call. -/
theorem C6_witness :
    (summariseDefault pW6 rW6).repairCalls = 1 ∧
    (summariseDefault pW6 rW6).outcome = .ok ⟨"pos", ""⟩ :=
  C6_empty_tldr_policy pW6 rW6 0 dWS "pos" dW0 (Nat.zero_le 2)
    (fun i hi => absurd hi (Nat.not_lt_zero i)) rfl rfl rfl rfl rfl

/-- 30 one-letter words: far outside both bands. -/
def tldr30 : String :=
  "w w w w w w w w w w w w w w w w w w w w w w w w w w w w w w"

/-- 20 one-letter words: closer to 10 than 30 but still outside both bands. -/
def tldr20 : String := "w w w w w w w w w w w w w w w w w w w w"

/-- Primary oracle returning a 30-word tldr. -/
def p9 : Nat → Except String GData :=
  fun _ => .ok ⟨some (.pystr "pos"), some (.pystr tldr30)⟩

/-- Repair oracle returning a 20-word tldr (and a sentiment that must be
ignored). -/
def r9 : Nat → String → Except String GData :=
  fun _ _ => .ok ⟨some (.pystr "neg"), some (.pystr tldr20)⟩

/-- C9: the adopted repair tldr is never revalidated against any band — a
30-word primary tldr repaired to 20 words is returned without error even
though 20 words lies outside `[8, 12]` and outside `[6, 16]` (and the
sentiment still comes from the primary response). -/
theorem C9_adopted_repair_not_revalidated :
    (summariseDefault p9 r9).outcome = .ok ⟨"pos", tldr20⟩ ∧
    (_count_words tldr20 < 8 ∨ 12 < _count_words tldr20) ∧
    (_count_words tldr20 < 6 ∨ 16 < _count_words tldr20) :=
  ⟨rfl, Or.inr (by decide), Or.inr (by decide)⟩

/-- The error message raised by `(s or "").strip()` on a truthy non-string
sentiment value. -/
def attrErr : String := "AttributeError: object has no attribute strip"

/-- Primary oracle whose response parses to the JSON object
with sentiment 1 (a truthy non-string) and a 3-word tldr. -/
def pBadSent : Nat → Except String GData :=
  fun _ => .ok ⟨some (.pyint 1), some (.pystr "Fun game overall")⟩

/-- Repair oracle for the C10 counterexample (never reached, because each
attempt fails before the band check). -/
def rBadSent : Nat → String → Except String GData := fun _ _ => .error "unused"

/-- C10 counterexample: a first-attempt primary response whose extracted
text parses to a JSON object (sentiment value 1) on which `summarise` does
NOT return a record: `_normalize_sentiment` raises `AttributeError` inside
the attempt, the engine sleeps twice (0.8s, 1.6s) and finally raises —
post-parse processing is not total. -/
theorem C10_counterexample :
    (summariseDefault pBadSent rBadSent).outcome = .error attrErr ∧
    (summariseDefault pBadSent rBadSent).sleeps = [4 / 5, 8 / 5] := by
  have hlast : attemptOutcome pBadSent rBadSent 8 12 6 16 2 = .error attrErr := rfl
  have hall : ∀ i, i < 2 → ∃ e2, attemptOutcome pBadSent rBadSent 8 12 6 16 i = .error e2 := by
    intro i hi
    exact ⟨attrErr, by interval_cases i <;> rfl⟩
  unfold summariseDefault summarise
  rw [show summariseAux pBadSent rBadSent (4 / 5) 8 12 6 16 0 2 =
    summarise pBadSent rBadSent 2 (4 / 5) 8 12 6 16 from rfl]
  rw [summarise_all_fail hall hlast]
  refine ⟨rfl, ?_⟩
  show sleepList ((4 : ℚ) / 5) 0 2 = [4 / 5, 8 / 5]
  norm_num [sleepList]

/-- C10 amended: when the first-attempt primary response parses to a JSON
object whose sentiment value is absent, null, falsy, or a string (so that
`_normalize_sentiment` succeeds), `summarise` returns a
`{sentiment, tldr}` record built from that response without raising and
without any backoff sleep; exceptions in the repair path are caught. -/
theorem C10_amended_first_attempt_ok (primary : Nat → Except String GData)
    (repair : Nat → String → Except String GData) (retries : Nat) (backoff : ℚ)
    (accept_min accept_max extreme_min extreme_max : Nat) (d : GData) (snt : String)
    (h0 : primary 0 = .ok d)
    (hsnt : _normalize_sentiment d.sentiment = .ok snt) :
    (summarise primary repair retries backoff accept_min accept_max extreme_min
      extreme_max).sleeps = [] ∧
    ∃ t, (summarise primary repair retries backoff accept_min accept_max extreme_min
      extreme_max).outcome = .ok ⟨snt, t⟩ := by
  obtain ⟨t, rc, h1⟩ := attemptRun_sentiment_ok
    (repair 0 (repairInstruction accept_min accept_max)) extreme_min extreme_max hsnt
  have h2 : attemptOutcome primary repair accept_min accept_max extreme_min extreme_max 0 =
      .ok (⟨snt, t⟩, rc) := by
    rw [attemptOutcome_ok h0]
    exact h1
  rw [summarise_first_success (fun i hi => absurd hi (Nat.not_lt_zero i)) h2
    (Nat.zero_le retries)]
  exact ⟨rfl, t, rfl⟩

/-- Primary oracle that parses to the well-formed 10-word response. -/
def pW10 : Nat → Except String GData := fun _ => .ok dW10

/-- Witness for the amended C10: a well-formed first response means no
backoff sleep at all. -/
theorem C10_witness :
    (summarise pW10 rFail 2 (4 / 5) 8 12 6 16).sleeps = [] :=
  (C10_amended_first_attempt_ok pW10 rFail 2 (4 / 5) 8 12 6 16 dW10 "neg" rfl rfl).1

/-! ## Claims about the run loop -/

/-- A successful `List.lookup` finds a pair of the list. -/
theorem lookup_mem : ∀ (c : List (String × Nat)) (k : String) (id : Nat),
    c.lookup k = some id → ∃ k2, (k2, id) ∈ c := by
  intro c
  induction c with
  | nil =>
      intro k id h
      rw [List.lookup_nil] at h
      exact Option.noConfusion h
  | cons p c ih =>
      intro k id h
      obtain ⟨pk, pv⟩ := p
      rw [List.lookup_cons] at h
      cases hbeq : (k == pk) with
      | true =>
          rw [hbeq] at h
          refine ⟨pk, ?_⟩
          rw [List.mem_cons]
          left
          simpa using h.symm
      | false =>
          rw [hbeq] at h
          obtain ⟨k2, hk2⟩ := ih k id h
          exact ⟨k2, List.mem_cons_of_mem _ hk2⟩

section ProcessEquations

variable {summariser : Nat → String → Except String Summary} {hash : String → String}
variable {noCache : Bool}

/-- Loop step on a cache hit: the cached dict itself is mutated with the
current review's author and recommendation and appended to the snapshots. -/
theorem processReview_hit (st : RunState) (rev : Review) {id : Nat}
    (hl : (if noCache then Option.none else st.cache.lookup (hash rev.text)) = some id) :
    processReview summariser hash noCache st rev =
      { st with
          store := st.store.set id
            { getObj st id with author := some rev.author,
                                recommended := some rev.recommended },
          snapshots := st.snapshots ++ [id] } := by
  simp only [processReview, hl]

/-- Loop step on a cache miss with a successful `summarise`: a fresh dict is
appended, registered in the cache (when caching is on) and snapshotted. -/
theorem processReview_miss_ok (st : RunState) (rev : Review) {sm : Summary}
    (hl : (if noCache then Option.none else st.cache.lookup (hash rev.text)) = Option.none)
    (hr : summariser st.calls rev.text = .ok sm) :
    processReview summariser hash noCache st rev =
      { store := st.store ++
          [{ sentiment := some sm.sentiment, tldr := some sm.tldr,
             author := some rev.author, recommended := some rev.recommended,
             error := Option.none }],
        cache := if noCache then st.cache
                 else mapSet st.cache (hash rev.text) st.store.length,
        snapshots := st.snapshots ++ [st.store.length],
        calls := st.calls + 1 } := by
  simp only [processReview, hl, hr]

/-- Loop step on a cache miss with a failing `summarise`: the error record
is appended to the snapshots and the loop moves on. -/
theorem processReview_miss_err (st : RunState) (rev : Review) {e : String}
    (hl : (if noCache then Option.none else st.cache.lookup (hash rev.text)) = Option.none)
    (hr : summariser st.calls rev.text = .error e) :
    processReview summariser hash noCache st rev =
      { st with
          store := st.store ++ [{ emptyObj with author := some rev.author, error := some e }],
          snapshots := st.snapshots ++ [st.store.length],
          calls := st.calls + 1 } := by
  simp only [processReview, hl, hr]

end ProcessEquations

/-- Each processed review appends exactly one snapshot. -/
theorem processReview_snapshots_len (summariser : Nat → String → Except String Summary)
    (hash : String → String) (noCache : Bool) (st : RunState) (rev : Review) :
    (processReview summariser hash noCache st rev).snapshots.length =
      st.snapshots.length + 1 := by
  rcases hl : (if noCache then Option.none else st.cache.lookup (hash rev.text)) with _ | id
  · rcases hr : summariser st.calls rev.text with e | sm
    · rw [processReview_miss_err st rev hl hr]
      simp
    · rw [processReview_miss_ok st rev hl hr]
      simp
  · rw [processReview_hit st rev hl]
    simp

/-- Folding the loop body appends one snapshot per review. -/
theorem foldl_snapshots_len (summariser : Nat → String → Except String Summary)
    (hash : String → String) (noCache : Bool) (l : List Review) :
    ∀ st : RunState,
      (l.foldl (processReview summariser hash noCache) st).snapshots.length =
        st.snapshots.length + l.length := by
  induction l with
  | nil =>
      intro st
      simp
  | cons r l ih =>
      intro st
      rw [List.foldl_cons, ih, processReview_snapshots_len]
      simp
      omega

/-- The loop body keeps every cache index pointing inside the store. -/
theorem processReview_cache_bound (summariser : Nat → String → Except String Summary)
    (hash : String → String) (noCache : Bool) (st : RunState) (rev : Review)
    (h : ∀ p ∈ st.cache, p.2 < st.store.length) :
    ∀ p ∈ (processReview summariser hash noCache st rev).cache,
      p.2 < (processReview summariser hash noCache st rev).store.length := by
  rcases hl : (if noCache then Option.none else st.cache.lookup (hash rev.text)) with _ | id
  · rcases hr : summariser st.calls rev.text with e | sm
    · rw [processReview_miss_err st rev hl hr]
      intro p hp
      have := h p hp
      simp only [List.length_append, List.length_cons]
      omega
    · rw [processReview_miss_ok st rev hl hr]
      intro p hp
      simp only [List.length_append, List.length_cons]
      cases noCache with
      | true =>
          have := h p (by simpa using hp)
          omega
      | false =>
          simp only [Bool.false_eq_true, if_false, mapSet] at hp
          rcases List.mem_cons.mp hp with hp1 | hp2
          · rw [hp1]
            simp
          · have := h p (List.mem_of_mem_filter hp2)
            omega
  · rw [processReview_hit st rev hl]
    intro p hp
    simpa [List.length_set] using h p hp

/-- The cache indices of any run are bounded by the store size. -/
theorem runReviews_cache_bound (summariser : Nat → String → Except String Summary)
    (hash : String → String) (noCache : Bool) (l : List Review) :
    ∀ p ∈ (runReviews summariser hash noCache l).cache,
      p.2 < (runReviews summariser hash noCache l).store.length := by
  unfold runReviews
  have haux : ∀ st : RunState, (∀ p ∈ st.cache, p.2 < st.store.length) →
      ∀ p ∈ (l.foldl (processReview summariser hash noCache) st).cache,
        p.2 < (l.foldl (processReview summariser hash noCache) st).store.length := by
    induction l with
    | nil =>
        intro st h
        simpa using h
    | cons r l ih =>
        intro st h
        rw [List.foldl_cons]
        exact ih _ (processReview_cache_bound summariser hash noCache st r h)
  refine haux initState ?_
  intro p hp
  simp [initState] at hp

/-- One loop step preserves: a store cell no cache index points at, and any
snapshot entry referring to it. -/
theorem processReview_preserves (summariser : Nat → String → Except String Summary)
    (hash : String → String) (noCache : Bool) (st : RunState) (rev : Review)
    (errId : Nat) (o : Obj) (k : Nat)
    (h1 : st.store[errId]? = some o)
    (hc : ∀ p ∈ st.cache, p.2 < st.store.length ∧ p.2 ≠ errId)
    (hs : st.snapshots[k]? = some errId) :
    (processReview summariser hash noCache st rev).store[errId]? = some o ∧
    (∀ p ∈ (processReview summariser hash noCache st rev).cache,
      p.2 < (processReview summariser hash noCache st rev).store.length ∧ p.2 ≠ errId) ∧
    (processReview summariser hash noCache st rev).snapshots[k]? = some errId := by
  have helen : errId < st.store.length := (List.getElem?_eq_some.mp h1).1
  have hklen : k < st.snapshots.length := (List.getElem?_eq_some.mp hs).1
  rcases hl : (if noCache then Option.none else st.cache.lookup (hash rev.text)) with _ | id
  · rcases hr : summariser st.calls rev.text with e2 | sm
    · rw [processReview_miss_err st rev hl hr]
      refine ⟨?_, ?_, ?_⟩
      · show (st.store ++ [_])[errId]? = some o
        rw [List.getElem?_append_left helen]
        exact h1
      · intro p hp
        have := hc p hp
        simp only [List.length_append, List.length_cons]
        exact ⟨by omega, this.2⟩
      · show (st.snapshots ++ [_])[k]? = some errId
        rw [List.getElem?_append_left hklen]
        exact hs
    · rw [processReview_miss_ok st rev hl hr]
      refine ⟨?_, ?_, ?_⟩
      · show (st.store ++ [_])[errId]? = some o
        rw [List.getElem?_append_left helen]
        exact h1
      · intro p hp
        simp only [List.length_append, List.length_cons]
        cases noCache with
        | true =>
            have := hc p (by simpa using hp)
            exact ⟨by omega, this.2⟩
        | false =>
            simp only [Bool.false_eq_true, if_false, mapSet] at hp
            rcases List.mem_cons.mp hp with hp1 | hp2
            · rw [hp1]
              exact ⟨by simp, by omega⟩
            · have := hc p (List.mem_of_mem_filter hp2)
              exact ⟨by omega, this.2⟩
      · show (st.snapshots ++ [_])[k]? = some errId
        rw [List.getElem?_append_left hklen]
        exact hs
  · have hid : id ≠ errId := by
      cases noCache with
      | true => simp at hl
      | false =>
          simp only [Bool.false_eq_true, if_false] at hl
          obtain ⟨k2, hk2⟩ := lookup_mem _ _ _ hl
          exact (hc _ hk2).2
    rw [processReview_hit st rev hl]
    refine ⟨?_, ?_, ?_⟩
    · show (st.store.set id _)[errId]? = some o
      rw [List.getElem?_set_ne hid]
      exact h1
    · intro p hp
      have := hc p hp
      simpa [List.length_set] using this
    · show (st.snapshots ++ [id])[k]? = some errId
      rw [List.getElem?_append_left hklen]
      exact hs

/-- Folding the rest of the reviews preserves an untouched store cell and a
snapshot entry that points at it. -/
theorem foldl_preserves_err (summariser : Nat → String → Except String Summary)
    (hash : String → String) (noCache : Bool) (errId : Nat) (o : Obj) (k : Nat)
    (l : List Review) :
    ∀ st : RunState,
    st.store[errId]? = some o →
    (∀ p ∈ st.cache, p.2 < st.store.length ∧ p.2 ≠ errId) →
    st.snapshots[k]? = some errId →
    (l.foldl (processReview summariser hash noCache) st).snapshots[k]? = some errId ∧
    (l.foldl (processReview summariser hash noCache) st).store[errId]? = some o := by
  induction l with
  | nil =>
      intro st h1 _ h3
      exact ⟨h3, h1⟩
  | cons r l ih =>
      intro st h1 h2 h3
      rw [List.foldl_cons]
      obtain ⟨g1, g2, g3⟩ :=
        processReview_preserves summariser hash noCache st r errId o k h1 h2 h3
      exact ih _ g1 g2 g3

/-- The run after a failing `summarise`: the error record survives at its
store position and at its snapshot position through the rest of the loop. -/
theorem run_error_step (summariser : Nat → String → Except String Summary)
    (hash : String → String) (noCache : Bool) (stP : RunState) (rv : Review)
    (post : List Review) (e : String)
    (hnone : (if noCache then Option.none else stP.cache.lookup (hash rv.text)) = Option.none)
    (hfail : summariser stP.calls rv.text = .error e)
    (hcb : ∀ p ∈ stP.cache, p.2 < stP.store.length) :
    (List.foldl (processReview summariser hash noCache)
        (processReview summariser hash noCache stP rv) post).snapshots.length =
      stP.snapshots.length + 1 + post.length ∧
    (List.foldl (processReview summariser hash noCache)
        (processReview summariser hash noCache stP rv) post).snapshots[stP.snapshots.length]? =
      some stP.store.length ∧
    (List.foldl (processReview summariser hash noCache)
        (processReview summariser hash noCache stP rv) post).store[stP.store.length]? =
      some { emptyObj with author := some rv.author, error := some e } := by
  rw [processReview_miss_err stP rv hnone hfail]
  refine ⟨?_, foldl_preserves_err summariser hash noCache stP.store.length _
    stP.snapshots.length post _ ?_ ?_ ?_⟩
  · rw [foldl_snapshots_len]
    show (stP.snapshots ++ [stP.store.length]).length + post.length =
      stP.snapshots.length + 1 + post.length
    rw [List.length_append]
    simp
  · show (stP.store ++ [_])[stP.store.length]? = _
    rw [List.getElem?_concat_length]
  · intro p hp
    have := hcb p hp
    show p.2 < (stP.store ++ [_]).length ∧ p.2 ≠ stP.store.length
    rw [List.length_append]
    refine ⟨by simp; omega, by omega⟩
  · show (stP.snapshots ++ [_])[stP.snapshots.length]? = _
    rw [List.getElem?_concat_length]

/-- C7: a failing `summarise` on one review does not abort the run: that
review's snapshot becomes the error record `{error, author}` with the author
preserved, processing of the remaining reviews continues, and the output has
exactly one snapshot per fetched review, in order. -/
theorem C7_per_review_error_isolation (summariser : Nat → String → Except String Summary)
    (hash : String → String) (noCache : Bool) (pre post : List Review) (rv : Review)
    (e : String)
    (hmiss : noCache = true ∨
      (runReviews summariser hash noCache pre).cache.lookup (hash rv.text) = Option.none)
    (hfail : summariser (runReviews summariser hash noCache pre).calls rv.text = .error e) :
    (runReviews summariser hash noCache (pre ++ rv :: post)).snapshots.length =
      pre.length + 1 + post.length ∧
    (runReviews summariser hash noCache (pre ++ rv :: post)).snapshots[pre.length]? =
      some (runReviews summariser hash noCache pre).store.length ∧
    (runReviews summariser hash noCache (pre ++ rv :: post)).store[
      (runReviews summariser hash noCache pre).store.length]? =
      some { emptyObj with author := some rv.author, error := some e } := by
  have hnone : (if noCache then Option.none
      else (runReviews summariser hash noCache pre).cache.lookup (hash rv.text)) =
      Option.none := by
    rcases hmiss with h | h
    · rw [h]
      rfl
    · cases noCache
      · simpa using h
      · rfl
  have hcb := runReviews_cache_bound summariser hash noCache pre
  have hlenpre : (runReviews summariser hash noCache pre).snapshots.length = pre.length := by
    unfold runReviews
    rw [foldl_snapshots_len]
    simp [initState]
  have hmain := run_error_step summariser hash noCache
    (runReviews summariser hash noCache pre) rv post e hnone hfail hcb
  have hdecomp : runReviews summariser hash noCache (pre ++ rv :: post) =
      List.foldl (processReview summariser hash noCache)
        (processReview summariser hash noCache (runReviews summariser hash noCache pre) rv)
        post := by
    unfold runReviews
    rw [List.foldl_append, List.foldl_cons]
  rw [hdecomp]
  refine ⟨?_, ?_, ?_⟩
  · rw [hmain.1, hlenpre]
  · rw [← hlenpre]
    exact hmain.2.1
  · exact hmain.2.2

/-- Summariser that always fails, for the C7 witness. -/
def failSummariser : Nat → String → Except String Summary := fun _ _ => .error "boom"

/-- Witness for C7: a run of one review whose summarisation fails produces
one snapshot, the error record with the author preserved. -/
theorem C7_witness :
    (runReviews failSummariser (fun s => s) false [⟨"bob", "txt", true⟩]).snapshots.length = 1 ∧
    (runReviews failSummariser (fun s => s) false [⟨"bob", "txt", true⟩]).snapshots[0]? =
      some 0 ∧
    (runReviews failSummariser (fun s => s) false [⟨"bob", "txt", true⟩]).store[0]? =
      some { emptyObj with author := some "bob", error := some "boom" } := by
  have h := C7_per_review_error_isolation failSummariser (fun s => s) false [] []
    ⟨"bob", "txt", true⟩ "boom" (Or.inr rfl) rfl
  exact h

/-- The claim's reading of a cache value: a dict of shape
`{sentiment, tldr}` only — no author, recommendation or error key. -/
def pureSummaryShape (o : Obj) : Prop :=
  o.author = Option.none ∧ o.recommended = Option.none ∧ o.error = Option.none

/-- The claimed invariant: every cache entry holds a pure `{sentiment, tldr}`
record. -/
def cacheShapeInvariant (st : RunState) : Prop :=
  ∀ p ∈ st.cache, pureSummaryShape (getObj st p.2)

/-- Summariser for the C8 counterexample run. -/
def exSummariser : Nat → String → Except String Summary :=
  fun _ _ => .ok ⟨"pos", "Good fun"⟩

/-- A one-review run with caching on. -/
def exRun : RunState :=
  runReviews exSummariser (fun s => s) false [⟨"alice", "great game", true⟩]

/-- C8 counterexample: after a single cached review, the cache entry's dict
is NOT of shape `{sentiment, tldr}` — because `s["author"] = ...` mutates
the very dict stored in the cache, the entry also carries the review's
author and recommendation. -/
theorem C8_counterexample : ¬ cacheShapeInvariant exRun := by
  intro h
  have hmem : ("great game", 0) ∈ exRun.cache := by decide
  have := (h ("great game", 0) hmem).1
  revert this
  decide

/-- The run state after one review of text `r1.text` was summarised to `sm`
and cached: the cached index 0 points at the (already author-extended)
snapshot dict. -/
def midState (hash : String → String) (r1 : Review) (sm : Summary) : RunState :=
  { store := [⟨some sm.sentiment, some sm.tldr, some r1.author,
      some r1.recommended, Option.none⟩],
    cache := [(hash r1.text, 0)], snapshots := [0], calls := 1 }

/-- C8 amended: every cache entry is keyed by the hash of the review text
and holds the summary produced for that text, but — the cached dict being
the same object as the snapshot dict — it also carries the `author` and
`recommended` fields of the most recent review with that text; two reviews
with identical text share the single cached object and the second is served
from the cache without a new `summarise` call. -/
theorem C8_amended_shared_cache_object (summariser : Nat → String → Except String Summary)
    (hash : String → String) (r1 r2 : Review) (sm : Summary)
    (hte : r1.text = r2.text)
    (hok : summariser 0 r1.text = .ok sm) :
    (runReviews summariser hash false [r1, r2]).calls = 1 ∧
    (runReviews summariser hash false [r1, r2]).snapshots = [0, 0] ∧
    (runReviews summariser hash false [r1, r2]).cache = [(hash r1.text, 0)] ∧
    (runReviews summariser hash false [r1, r2]).store =
      [⟨some sm.sentiment, some sm.tldr, some r2.author, some r2.recommended,
        Option.none⟩] := by
  have h0 : runReviews summariser hash false [r1, r2] =
      processReview summariser hash false
        (processReview summariser hash false initState r1) r2 := rfl
  have hl1 : (if false then Option.none
      else initState.cache.lookup (hash r1.text)) = Option.none := rfl
  have hok1 : summariser initState.calls r1.text = .ok sm := hok
  have hs1 : processReview summariser hash false initState r1 = midState hash r1 sm := by
    rw [processReview_miss_ok initState r1 hl1 hok1]
    simp [initState, mapSet, midState]
  have hl2p : List.lookup (hash r2.text) (midState hash r1 sm).cache = some 0 := by
    rw [← hte]
    show List.lookup (hash r1.text) [(hash r1.text, 0)] = some 0
    rw [List.lookup_cons]
    simp
  have hl2 : (if false then Option.none
      else (midState hash r1 sm).cache.lookup (hash r2.text)) = some 0 := hl2p
  have hs2 : processReview summariser hash false (midState hash r1 sm) r2 =
      ({ store := [⟨some sm.sentiment, some sm.tldr, some r2.author,
            some r2.recommended, Option.none⟩],
         cache := [(hash r1.text, 0)], snapshots := [0, 0], calls := 1 } : RunState) := by
    rw [processReview_hit _ r2 hl2]
    simp [midState, getObj]
  rw [h0, hs1, hs2]
  exact ⟨rfl, rfl, rfl, rfl⟩

/-- Summariser for the C8 witness run. -/
def exSummariser2 : Nat → String → Except String Summary :=
  fun _ _ => .ok ⟨"neg", "Bad overall"⟩

/-- Witness for the amended C8: two reviews with the same text, caching on —
one `summarise` call, one shared cached object keyed by the hash of
the text, holding the summary plus the second review's author. -/
theorem C8_witness :
    (runReviews exSummariser2 (fun s => s ++ "#") false
      [⟨"a", "t", true⟩, ⟨"b", "t", false⟩]).calls = 1 ∧
    (runReviews exSummariser2 (fun s => s ++ "#") false
      [⟨"a", "t", true⟩, ⟨"b", "t", false⟩]).snapshots = [0, 0] ∧
    (runReviews exSummariser2 (fun s => s ++ "#") false
      [⟨"a", "t", true⟩, ⟨"b", "t", false⟩]).cache = [("t#", 0)] ∧
    (runReviews exSummariser2 (fun s => s ++ "#") false
      [⟨"a", "t", true⟩, ⟨"b", "t", false⟩]).store =
      [⟨some "neg", some "Bad overall", some "b", some false, Option.none⟩] := by
  have h := C8_amended_shared_cache_object exSummariser2 (fun s => s ++ "#")
    ⟨"a", "t", true⟩ ⟨"b", "t", false⟩ ⟨"neg", "Bad overall"⟩ rfl rfl
  exact h

end SteamReview
